import Mathlib

/-!
Verification of the non-UI logic of the whatsapp-contacts-app repository
(src/src/App.tsx, with the legacy variant src/whatsapp_contact_manager.tsx).

Strings are modelled as `List Char`.  JavaScript values flowing through the
JSON import path are modelled by the inductive `JVal`; spreadsheet cells are
modelled by `Cell` (a string or an integer; `Option Cell` stands for a cell
that may be absent, i.e. `undefined`/`null` in the sheet array).  Fallible
code returns `Except (List Char) _`, the error side carrying the thrown
message.  `generateId` (date plus random suffix) is nondeterministic in the
source; it is modelled by a caller-supplied generator `gen : Nat → List Char`
applied at the element's position.
-/

deriving instance DecidableEq for Except

namespace WCA

/-- Substring test on character lists, the model of JavaScript
`String.prototype.includes`. -/
def containsSub : List Char → List Char → Bool
  | s, pat =>
    pat.isPrefixOf s ||
      match s with
      | [] => false
      | _ :: rest => containsSub rest pat

/-- Model of JavaScript `String.prototype.trim`: drop whitespace from both
ends. -/
def trimChars (s : List Char) : List Char :=
  ((s.dropWhile Char.isWhitespace).reverse.dropWhile Char.isWhitespace).reverse

/-- Model of JavaScript `String.prototype.toLowerCase` (the headers in the
source are plain ASCII-with-accents words; `Char.toLower` agrees on them). -/
def lowerChars (s : List Char) : List Char :=
  s.map Char.toLower

/-- Parsed JSON/JavaScript value, the input domain of the JSON import path. -/
inductive JVal where
  | jnull : JVal
  | jbool : Bool → JVal
  | jnum : Int → JVal
  | jstr : List Char → JVal
  | jarr : List JVal → JVal
  | jobj : List (List Char × JVal) → JVal

/-- JavaScript truthiness of a value (`!v` in the source negates this). -/
def JVal.truthy : JVal → Bool
  | .jnull => false
  | .jbool b => b
  | .jnum n => decide (n ≠ 0)
  | .jstr s => decide (s ≠ [])
  | .jarr _ => true
  | .jobj _ => true

/-- Property access `v.k`: a lookup on objects, `undefined` (here `none`) on
every other value.  JSON.parse resolves duplicate keys to the last
occurrence, hence the lookup on the reversed field list.  (In JavaScript the
access `null.k` throws a TypeError instead of yielding `undefined`; both
sides abort the surrounding import, and no claim distinguishes the two
messages.) -/
def JVal.getField (v : JVal) (k : List Char) : Option JVal :=
  match v with
  | .jobj fields => (fields.reverse.find? (fun p => p.1 == k)).map Prod.snd
  | _ => none

/-- Truthiness of a possibly-absent field (`!item.k`). -/
def truthyField (o : Option JVal) : Bool :=
  match o with
  | none => false
  | some v => v.truthy

mutual

/-- JavaScript `String(v)` coercion.  Scalars print as in JavaScript
(integers via `toString`); arrays join their members with commas, a `null`
member printing as the empty string; objects print as the fixed tag. -/
def JVal.toStr : JVal → List Char
  | .jnull => ('n' :: 'u' :: 'l' :: 'l' :: [])
  | .jbool true => ('t' :: 'r' :: 'u' :: 'e' :: [])
  | .jbool false => ('f' :: 'a' :: 'l' :: 's' :: 'e' :: [])
  | .jnum n => (toString n).toList
  | .jstr s => s
  | .jarr elems => JVal.joinStr elems
  | .jobj _ => ('[' :: 'o' :: 'b' :: 'j' :: 'e' :: 'c' :: 't' :: ' ' :: 'O' :: 'b' :: 'j' :: 'e' :: 'c' :: 't' :: ']' :: [])

/-- Comma join used by `Array.prototype.toString`. -/
def JVal.joinStr : List JVal → List Char
  | [] => []
  | v :: [] => JVal.elemStr v
  | v :: rest => JVal.elemStr v ++ ',' :: JVal.joinStr rest

/-- Array members stringify like `String(v)` except that `null` members
print as the empty string. -/
def JVal.elemStr : JVal → List Char
  | .jnull => []
  | .jbool true => ('t' :: 'r' :: 'u' :: 'e' :: [])
  | .jbool false => ('f' :: 'a' :: 'l' :: 's' :: 'e' :: [])
  | .jnum n => (toString n).toList
  | .jstr s => s
  | .jarr elems => JVal.joinStr elems
  | .jobj _ => ('[' :: 'o' :: 'b' :: 'j' :: 'e' :: 'c' :: 't' :: ' ' :: 'O' :: 'b' :: 'j' :: 'e' :: 'c' :: 't' :: ']' :: [])

end

/-- JavaScript `===` restricted to scalar values; the ids compared in the
source are the strings of `generateId` or scalar ids supplied by the JSON
input.  (On two objects or arrays `===` is reference equality, which a
value model cannot express; no record in this program carries such an id.) -/
def scalarEq : JVal → JVal → Bool
  | .jnull, .jnull => true
  | .jbool a, .jbool b => a == b
  | .jnum a, .jnum b => a == b
  | .jstr a, .jstr b => a == b
  | _, _ => false

/-- Message text of the error thrown by `cleanPhoneNumber`. -/
def invalidPhoneMsg (phone : List Char) : List Char :=
  ("Número de telefone inválido: ").toList ++ phone

/-- `cleanPhoneNumber` from src/src/App.tsx (lines 37-51): keep the digits
of `String(phone)`, drop leading zeros, prepend the country code 55 when
the result does not already start with 55 and is at most 11 digits long,
and fail when fewer than 12 digits remain. -/
def cleanPhoneNumber (phone : JVal) : Except (List Char) (List Char) :=
  let cleaned0 := (JVal.toStr phone).filter Char.isDigit
  let cleaned1 := cleaned0.dropWhile (fun c => c == '0')
  let cleaned2 :=
    if ('5' :: '5' :: []).isPrefixOf cleaned1 = false ∧ cleaned1.length ≤ 11 then
      '5' :: '5' :: cleaned1
    else cleaned1
  if cleaned2.length < 12 then
    Except.error (invalidPhoneMsg (JVal.toStr phone))
  else
    Except.ok cleaned2

/-- Modelled from the spec's words (section 4.1), for comparison with the
source's `cleanPhoneNumber`: strip every non-digit, strip leading zeros,
and prepend the country code when the result does not begin with 55 and has
at most 11 digits.  The claim states that normalization succeeds with this
candidate exactly when it is at least 12 digits long. -/
def normCandidate (s : List Char) : List Char :=
  let digitsOnly := s.filter Char.isDigit
  let noZeros := digitsOnly.dropWhile (fun c => c == '0')
  if ('5' :: '5' :: []).isPrefixOf noZeros = false ∧ noZeros.length ≤ 11 then
    '5' :: '5' :: noZeros
  else noZeros

/-- The five contact statuses of the source's `ContactStatus` union. -/
inductive ContactStatus where
  | pendente : ContactStatus
  | mensagemEnviada : ContactStatus
  | aguardandoResposta : ContactStatus
  | respondido : ContactStatus
  | outro : ContactStatus
deriving DecidableEq, Repr

/-- The literal string of each status, as it appears in the source. -/
def statusLabel : ContactStatus → List Char
  | .pendente => ("Pendente").toList
  | .mensagemEnviada => ("Mensagem enviada").toList
  | .aguardandoResposta => ("Aguardando resposta").toList
  | .respondido => ("Respondido").toList
  | .outro => ("Outro").toList

/-- Spreadsheet cell value: a string or an integer number, as delivered by
`sheet_to_json`.  (Fractional cells do not occur in any claim; integer
numbers cover every numeric case the claims exercise.) -/
inductive Cell where
  | str : List Char → Cell
  | num : Int → Cell
deriving DecidableEq, Repr

/-- The `Contact` interface of the source.  `id`, `name` and
`customMessage` are stored raw in the JSON import path, hence `JVal`;
`phone` is always the string produced by `cleanPhoneNumber`. -/
structure Contact where
  id : JVal
  name : JVal
  phone : List Char
  status : ContactStatus
  customMessage : Option JVal := none
  timerActive : Bool := false
  extraInfo : Option (List (List Char × Cell)) := none

/-- The name placeholder `\x7bname\x7d` searched by `replacePlaceholders`. -/
def namePlaceholder : List Char := ("\x7bname\x7d").toList

/-- The phone placeholder `\x7bphone\x7d` searched by
`replacePlaceholders`. -/
def phonePlaceholder : List Char := ("\x7bphone\x7d").toList

/-- The backquote character (code point 96), written via `Char.ofNat`. -/
def backquoteChar : Char := Char.ofNat 96

/-- The single-quote character (code point 39), written via
`Char.ofNat`. -/
def quoteChar : Char := Char.ofNat 39

/-- The `GetSubstitution` expansion JavaScript applies to a *string*
replacement argument of `String.prototype.replace`: in the replacement
text, `$$` yields a dollar sign, `$&` the matched text, a dollar followed
by a backquote the part of the subject before the match, and a dollar
followed by a quote the part after the match; any other dollar sequence is
literal (the patterns here have no capture groups, so `$n` and `$<...>`
stay literal as well). -/
def dollarSubst (pre matched post : List Char) : List Char → List Char
  | [] => []
  | c :: rest =>
    if c = '$' then
      match rest with
      | [] => '$' :: []
      | c2 :: rest2 =>
        if c2 = '$' then '$' :: dollarSubst pre matched post rest2
        else if c2 = '&' then matched ++ dollarSubst pre matched post rest2
        else if c2 = backquoteChar then pre ++ dollarSubst pre matched post rest2
        else if c2 = quoteChar then post ++ dollarSubst pre matched post rest2
        else '$' :: c2 :: dollarSubst pre matched post rest2
    else c :: dollarSubst pre matched post rest

/-- Fuel-indexed worker for `replaceAll`: scan `s`, the suffix of the
subject `orig` starting at position `i`, left to right; at each match
substitute the replacement text expanded by `dollarSubst` against the
original subject, and never rescan the substituted text within the same
pass.  The fuel only funds the recursion (each step consumes at least one
character, so `s.length` fuel is always enough) and keeps the definition
structurally recursive, hence evaluable. -/
def replaceAllF (pat rep orig : List Char) : Nat → Nat → List Char → List Char
  | _, _, [] => []
  | 0, _, s => s
  | fuel + 1, i, c :: rest =>
    if pat.isPrefixOf (c :: rest) ∧ 0 < pat.length then
      dollarSubst (orig.take i) pat (orig.drop (i + pat.length)) rep ++
        replaceAllF pat rep orig fuel (i + pat.length) (rest.drop (pat.length - 1))
    else
      c :: replaceAllF pat rep orig fuel (i + 1) rest

/-- Model of JavaScript `s.replace(pat, rep)` with a global literal
pattern and a string replacement: substitute each non-overlapping
occurrence with the replacement expanded by the dollar-sequence rules of
`dollarSubst` (a literal pattern always matches its own text). -/
def replaceAll (pat rep s : List Char) : List Char :=
  replaceAllF pat rep s s.length 0 s

/-- `replacePlaceholders` from both source files: replace every occurrence
of the name placeholder, then every occurrence of the phone placeholder in
the result.  The replacement values are coerced to strings as
`String.prototype.replace` does. -/
def replacePlaceholders (template : List Char) (contact : Contact) : List Char :=
  replaceAll phonePlaceholder contact.phone
    (replaceAll namePlaceholder (JVal.toStr contact.name) template)

/-- The pure contact-list update performed when the timeout armed by
`startTimer` fires (src/src/App.tsx lines 375-393): a contact whose id
matches and whose status is still exactly "Mensagem enviada" moves to
"Aguardando resposta" with its timer marker cleared; every other contact is
returned unchanged. -/
def startTimerFire (contactId : JVal) (contacts : List Contact) : List Contact :=
  contacts.map fun contact =>
    if scalarEq contact.id contactId = true ∧ contact.status = ContactStatus.mensagemEnviada then
      { contact with status := ContactStatus.aguardandoResposta, timerActive := false }
    else contact

/-- The contact-list update of `updateStatus` (manual status override):
the matching contact gets the new status and a cleared timer marker. -/
def updateStatus (contactId : JVal) (newStatus : ContactStatus) (contacts : List Contact) : List Contact :=
  contacts.map fun c =>
    if scalarEq c.id contactId = true then
      { c with status := newStatus, timerActive := false }
    else c

/-- The contact-list update of `handleWhatsAppClick` (dispatch): the
clicked contact's status becomes "Mensagem enviada" and its timer marker is
set (the function also opens the deep link and arms the timeout; those
effects live outside the list update). -/
def handleWhatsAppClickContacts (contactId : JVal) (contacts : List Contact) : List Contact :=
  contacts.map fun c =>
    if scalarEq c.id contactId = true then
      { c with status := ContactStatus.mensagemEnviada, timerActive := true }
    else c

/-- Field name "name". -/
def nameKey : List Char := ("name").toList

/-- Field name "phone". -/
def phoneKey : List Char := ("phone").toList

/-- Field name "id". -/
def idKey : List Char := ("id").toList

/-- Field name "customMessage". -/
def customMessageKey : List Char := ("customMessage").toList

/-- Message of the not-an-array error in `validateAndParseJSON`. -/
def notArrayMsg : List Char := ("JSON deve ser um array de contatos").toList

/-- Message of the missing-field error in `validateAndParseJSON`. -/
def missingFieldMsg : List Char := ("Cada contato deve ter \"name\" e \"phone\"").toList

/-- Prefix the `catch` block of `validateAndParseJSON` puts in front of
every thrown message. -/
def jsonErrPrefix : List Char := ("JSON inválido: ").toList

/-- The element-to-record map inside `validateAndParseJSON` (lines 189-201):
throw when the element's `name` or `phone` field is falsy; otherwise build a
record with the element's id when truthy (else a freshly generated one), the
raw name, the normalized phone, status forced to "Pendente", and the raw
`customMessage`.  `k` is the position of the element, fed to the id
generator. -/
def parseItems (gen : Nat → List Char) : Nat → List JVal → Except (List Char) (List Contact)
  | _, [] => Except.ok []
  | k, item :: rest =>
    if truthyField (item.getField nameKey) = true ∧ truthyField (item.getField phoneKey) = true then
      match cleanPhoneNumber ((item.getField phoneKey).getD JVal.jnull) with
      | Except.error e => Except.error e
      | Except.ok p =>
        (parseItems gen (k + 1) rest).map fun cs =>
          { id :=
              match item.getField idKey with
              | some v => if v.truthy = true then v else JVal.jstr (gen k)
              | none => JVal.jstr (gen k)
            name := (item.getField nameKey).getD JVal.jnull
            phone := p
            status := ContactStatus.pendente
            customMessage := item.getField customMessageKey } :: cs
    else
      Except.error missingFieldMsg

/-- `validateAndParseJSON` from src/src/App.tsx (lines 181-209).  The call
to the browser's `JSON.parse` is an external collaborator; its outcome is
the function's input here, the error side carrying the parser's message.
Every thrown message is re-thrown with the `jsonErrPrefix` prefix. -/
def validateAndParseJSON (gen : Nat → List Char) (parsed : Except (List Char) JVal) : Except (List Char) (List Contact) :=
  match parsed with
  | Except.error m => Except.error (jsonErrPrefix ++ m)
  | Except.ok v =>
    match v with
    | JVal.jarr items =>
      match parseItems gen 0 items with
      | Except.ok cs => Except.ok cs
      | Except.error e => Except.error (jsonErrPrefix ++ e)
    | _ => Except.error (jsonErrPrefix ++ notArrayMsg)

/-- The pieces of the component state that `handlePasteJSON` reads or
writes. -/
structure AppState where
  contacts : List Contact
  jsonInput : List Char
  hasChanges : Bool
  errorMsg : List Char
  successMsg : List Char

/-- `handlePasteJSON` (lines 363-373) as a state transition: on success the
new records replace the collection, the input box is cleared and the change
flag set; on any thrown error only the error message changes, the held
collection in particular stays untouched.  `parsed` is the outcome of
`JSON.parse` on the pasted text. -/
def handlePasteJSON (gen : Nat → List Char) (parsed : Except (List Char) JVal) (st : AppState) : AppState :=
  match validateAndParseJSON gen parsed with
  | Except.ok newContacts =>
    { st with
        contacts := newContacts
        jsonInput := []
        hasChanges := true
        successMsg := (toString newContacts.length).toList ++ (" contatos importados com sucesso!").toList }
  | Except.error msg => { st with errorMsg := msg }

/-- `String(v)` on a spreadsheet cell value. -/
def cellStr : Cell → List Char
  | .str s => s
  | .num n => (toString n).toList

/-- JavaScript truthiness of a cell value (the empty string and the number
0 are falsy). -/
def cellTruthy : Cell → Bool
  | .str s => decide (s ≠ [])
  | .num n => decide (n ≠ 0)

/-- A spreadsheet cell embedded as a JavaScript value (used where the
source hands a cell to `cleanPhoneNumber`). -/
def cellToJVal : Cell → JVal
  | .str s => JVal.jstr s
  | .num n => JVal.jnum n

/-- `String(h)` on a possibly-absent header cell (`String(undefined)` is
the literal "undefined"). -/
def headerStr : Option Cell → List Char
  | none => ("undefined").toList
  | some c => cellStr c

/-- The name-column test of `parseExcelFile` on a lowercased, trimmed
header: it contains "nome" or is exactly "name". -/
def nameHeaderB (h : List Char) : Bool :=
  containsSub h (("nome").toList) || h == nameKey

/-- The phone-column test of `parseExcelFile` on a lowercased, trimmed
header: it contains "telefone", "phone" or "celular". -/
def phoneHeaderB (h : List Char) : Bool :=
  containsSub h (("telefone").toList) || containsSub h phoneKey ||
    containsSub h (("celular").toList)

/-- The lowercased, trimmed headers the source scans for the two columns
(`String(h).toLowerCase().trim()`). -/
def lowHeaders (row0 : List (Option Cell)) : List (List Char) :=
  row0.map fun h => trimChars (lowerChars (headerStr h))

/-- The case-preserved, trimmed headers used as `extraInfo` keys
(`String(h).trim()`). -/
def origHeaders (row0 : List (Option Cell)) : List (List Char) :=
  row0.map fun h => trimChars (headerStr h)

/-- Index of the name column, `headers.findIndex(...)` in the source
(`none` models -1). -/
def nameIdxOf (row0 : List (Option Cell)) : Option Nat :=
  (lowHeaders row0).findIdx? nameHeaderB

/-- Index of the phone column. -/
def phoneIdxOf (row0 : List (Option Cell)) : Option Nat :=
  (lowHeaders row0).findIdx? phoneHeaderB

/-- The side-field collection loop of `parseExcelFile` (lines 268-278):
walk the headers with their index; a column other than the name and phone
columns whose cell is present and not the empty string contributes its
trimmed header and verbatim cell value. -/
def rowExtraAux (nameIdx phoneIdx : Nat) (row : List (Option Cell)) : Nat → List (List Char) → List (List Char × Cell)
  | _, [] => []
  | i, h :: hs =>
    let restE := rowExtraAux nameIdx phoneIdx row (i + 1) hs
    if i ≠ nameIdx ∧ i ≠ phoneIdx then
      match row.getD i none with
      | some v => if v = Cell.str [] then restE else (h, v) :: restE
      | none => restE
    else restE

/-- The error-list entry for a data row, `Linha (i+1): message`. -/
def linhaMsg (n : Nat) (e : List Char) : List Char :=
  ("Linha ").toList ++ (toString n).toList ++ (": ").toList ++ e

/-- One iteration of the data-row loop of `parseExcelFile` (lines 254-295)
on row index `i` (0-based, row 0 being the header row): `none` when the
row's name or phone cell is falsy (the row is skipped silently), otherwise
the built contact or the recorded per-row error. -/
def importRow (gen : Nat → List Char) (nameIdx phoneIdx : Nat) (headers : List (List Char)) (i : Nat) (row : List (Option Cell)) : Option (Except (List Char) Contact) :=
  match row.getD nameIdx none, row.getD phoneIdx none with
  | some nameCell, some phoneCell =>
    if cellTruthy nameCell = true ∧ cellTruthy phoneCell = true then
      let extra := rowExtraAux nameIdx phoneIdx row 0 headers
      match cleanPhoneNumber (cellToJVal phoneCell) with
      | Except.ok p =>
        some (Except.ok
          { id := JVal.jstr (gen i)
            name := JVal.jstr (trimChars (cellStr nameCell))
            phone := p
            status := ContactStatus.pendente
            extraInfo := if extra = [] then none else some extra })
      | Except.error e => some (Except.error (linhaMsg (i + 1) e))
    else none
  | _, _ => none

/-- The data-row loop: accumulate the built contacts and the per-row error
messages in row order. -/
def importRowsAux (gen : Nat → List Char) (nameIdx phoneIdx : Nat) (headers : List (List Char)) : Nat → List (List (Option Cell)) → List Contact × List (List Char)
  | _, [] => ([], [])
  | i, row :: rest =>
    let acc := importRowsAux gen nameIdx phoneIdx headers (i + 1) rest
    match importRow gen nameIdx phoneIdx headers i row with
    | none => acc
    | some (Except.ok c) => (c :: acc.1, acc.2)
    | some (Except.error e) => (acc.1, e :: acc.2)

/-- Message of the empty-sheet error. -/
def emptySheetMsg : List Char := ("Planilha vazia ou sem dados").toList

/-- Message of the missing-columns error. -/
def missingColsMsg : List Char :=
  ("Planilha deve conter colunas \"Nome\" e \"Telefone\" (ou variações)").toList

/-- Join a list of strings with ", ", the model of `errors.join(", ")`. -/
def joinComma : List (List Char) → List Char
  | [] => []
  | e :: [] => e
  | e :: rest => e ++ (", ").toList ++ joinComma rest

/-- The aggregate error raised when no row produced a valid record. -/
def noValidMsg (errors : List (List Char)) : List Char :=
  if errors = [] then ("Nenhum contato encontrado na planilha").toList
  else ("Nenhum contato válido encontrado. Erros: ").toList ++ joinComma errors

/-- `parseExcelFile` from src/src/App.tsx (lines 211-320), on the
row-of-cells array that `sheet_to_json(..., header: 1)` delivers (the
workbook decoding itself is the xlsx library, an external collaborator).
Fewer than two rows is an error; a missing name or phone column is an
error; each data row is processed by `importRow`; zero valid records is an
aggregate error; otherwise the contacts are returned (per-row errors are
only logged to the console). -/
def parseExcelFile (gen : Nat → List Char) (jsonData : List (List (Option Cell))) : Except (List Char) (List Contact) :=
  if jsonData.length < 2 then Except.error emptySheetMsg
  else
    match jsonData with
    | [] => Except.error emptySheetMsg
    | row0 :: dataRows =>
      match nameIdxOf row0, phoneIdxOf row0 with
      | some nameIdx, some phoneIdx =>
        let acc := importRowsAux gen nameIdx phoneIdx (origHeaders row0) 1 dataRows
        if acc.1.length = 0 then Except.error (noValidMsg acc.2)
        else Except.ok acc.1
      | _, _ => Except.error missingColsMsg

/-- Gregorian date (year, month, day) of the day `z` days after
1970-01-01, the standard civil-from-days conversion on integers. -/
def civilFromDays (z0 : Int) : Int × Int × Int :=
  let z := z0 + 719468
  let era := (if 0 ≤ z then z else z - 146096) / 146097
  let doe := z - era * 146097
  let yoe := (doe - doe / 1460 + doe / 36524 - doe / 146096) / 365
  let y := yoe + era * 400
  let doy := doe - (365 * yoe + yoe / 4 - yoe / 100)
  let mp := (5 * doy + 2) / 153
  let d := doy - (153 * mp + 2) / 5 + 1
  let m := mp + (if mp < 12 then 3 else -9)
  (y + (if m ≤ 2 then 1 else 0), m, d)

/-- Zero-padded two-digit rendering of a day or month number. -/
def padTwo (n : Int) : List Char :=
  if 0 ≤ n ∧ n < 10 then '0' :: (toString n).toList else (toString n).toList

/-- The day/month/year string the export writes for an Excel serial day
number `n`: the source adds `(n - 2)` days of milliseconds to a local-time
1900-01-01 epoch, i.e. the date `n` days after 1899-12-30 (serial 25569 is
1970-01-01); rendered here by the pure calendar conversion, which agrees
with the source's `Date` arithmetic away from daylight-saving jumps. -/
def serialDateStr (n : Int) : List Char :=
  let ymd := civilFromDays (n - 25569)
  padTwo ymd.2.2 ++ '/' :: padTwo ymd.2.1 ++ '/' :: (toString ymd.1).toList

/-- `convertExcelDate` inside `exportToExcel` (lines 523-536): a numeric
value strictly between 1000 and 100000 becomes the rendered calendar date;
everything else passes through unchanged. -/
def convertExcelDate : Cell → Cell
  | .num n => if 1000 < n ∧ n < 100000 then Cell.str (serialDateStr n) else Cell.num n
  | v => v

/-- The synthesized status column header written by the export. -/
def followUpHeader : List Char := ("Follow UP - 18-11-2025").toList

/-- Substring "follow up". -/
def followUpPat : List Char := ("follow up").toList

/-- Substring "followup". -/
def followUpPat2 : List Char := ("followup").toList

/-- The per-record row builder of `exportToExcel` (lines 538-581), as a
walk over the `extraInfo` entries threading the `followUpAdded` flag:
follow-up columns are dropped; date-like columns (key containing "data",
"date" or "envio") get the serial-to-date conversion; cnpj-like columns are
digit-stripped; after the first volume-like column the synthesized status
column is inserted; when no volume-like column occurred the status column
is appended at the end. -/
def exportRowAux (st : ContactStatus) : List (List Char × Cell) → Bool → List (List Char × Cell)
  | [], added => if added then [] else (followUpHeader, Cell.str (statusLabel st)) :: []
  | (k, v) :: rest, added =>
    let lk := lowerChars k
    if containsSub lk followUpPat = true ∨ containsSub lk followUpPat2 = true then
      exportRowAux st rest added
    else
      let fv :=
        if containsSub lk (("data").toList) = true ∨ containsSub lk (("date").toList) = true ∨
            containsSub lk (("envio").toList) = true then
          convertExcelDate v
        else if containsSub lk (("cnpj").toList) = true then
          Cell.str ((cellStr v).filter Char.isDigit)
        else v
      if containsSub lk (("volume").toList) = true ∧ added = false then
        (k, fv) :: (followUpHeader, Cell.str (statusLabel st)) :: exportRowAux st rest true
      else
        (k, fv) :: exportRowAux st rest added

/-- The export row of one contact: its side fields through `exportRowAux`
(a contact without side fields still gets the synthesized status
column). -/
def exportRow (c : Contact) : List (List Char × Cell) :=
  exportRowAux c.status (c.extraInfo.getD []) false

/-- The header list `json_to_sheet` derives from the row objects: the keys
in order of first appearance, row by row. -/
def sheetHeaders (rows : List (List (List Char × Cell))) : List (List Char) :=
  rows.foldl
    (fun acc row =>
      row.foldl (fun acc2 kv => if acc2.contains kv.1 then acc2 else acc2 ++ kv.1 :: []) acc)
    []

/-- The worksheet produced by `json_to_sheet` read back as a row-of-cells
grid (`sheet_to_json(..., header: 1)`): the header row followed by one row
per record, a column holding the record's value under that key or an
absent cell. -/
def gridOfRows (rows : List (List (List Char × Cell))) : List (List (Option Cell)) :=
  let hs := sheetHeaders rows
  (hs.map fun h => some (Cell.str h)) ::
    rows.map fun row => hs.map fun h => (row.find? fun kv => kv.1 == h).map Prod.snd

/-- Message of the empty-collection export error. -/
def noContactsMsg : List Char := ("Não há contatos para exportar").toList

/-- `exportToExcel` (lines 516-649) up to the workbook write: an empty
collection is refused with a user-facing error and nothing is written;
otherwise the produced worksheet, as the grid a re-import would read.
(Column widths, header styling and the timestamped file name decorate the
same grid and are not observable through any claim.) -/
def exportToExcel (contacts : List Contact) : Except (List Char) (List (List (Option Cell))) :=
  if contacts.length = 0 then Except.error noContactsMsg
  else Except.ok (gridOfRows (contacts.map exportRow))

/-- Whether an `Except` value is a success. -/
def isOkB {ε α : Type} : Except ε α → Bool
  | Except.ok _ => true
  | Except.error _ => false

/-- The conditions under which the element-to-record map of
`validateAndParseJSON` passes an element: truthy `name`, truthy `phone`,
and a phone that normalizes. -/
def jsonItemOk (it : JVal) : Bool :=
  truthyField (it.getField nameKey) && truthyField (it.getField phoneKey) &&
    isOkB (cleanPhoneNumber ((it.getField phoneKey).getD JVal.jnull))

/-- A fixed id generator used by the concrete instantiations: every fresh
id is the one-character string "g". -/
def genG : Nat → List Char := fun _ => 'g' :: []

/-- JSON element whose id field is present but empty (falsy). -/
def c2BadItem : JVal :=
  JVal.jobj ((idKey, JVal.jstr []) ::
    (nameKey, JVal.jstr (("Ana").toList)) ::
    (phoneKey, JVal.jstr (("11999999999").toList)) :: [])

/-- JSON element with a name and a normalizable phone. -/
def c2GoodItem : JVal :=
  JVal.jobj ((nameKey, JVal.jstr (("Ana").toList)) ::
    (phoneKey, JVal.jstr (("11999999999").toList)) :: [])

/-- The record list `validateAndParseJSON` produces from `c2GoodItem`
under the generator `genG`. -/
def c2Result : List Contact :=
  { id := JVal.jstr ('g' :: [])
    name := JVal.jstr (("Ana").toList)
    phone := ("5511999999999").toList
    status := ContactStatus.pendente
    customMessage := none } :: []

/-- JSON element whose phone "123" fails normalization. -/
def c3BadItem : JVal :=
  JVal.jobj ((nameKey, JVal.jstr (("Bia").toList)) ::
    (phoneKey, JVal.jstr (("123").toList)) :: [])

/-- JSON element that has a name field but no phone field. -/
def c4Item : JVal :=
  JVal.jobj ((nameKey, JVal.jstr (("Ana").toList)) :: [])

/-- The record of the spec's renderer example: name "Ana", phone
"5511999999999". -/
def anaContact : Contact :=
  { id := JVal.jstr []
    name := JVal.jstr (("Ana").toList)
    phone := ("5511999999999").toList
    status := ContactStatus.pendente }

/-- Spreadsheet grid whose header "fullname" contains "name" without
containing "nome" or being exactly "name". -/
def c5Grid : List (List (Option Cell)) :=
  (some (Cell.str (("fullname").toList)) :: some (Cell.str (("telefone").toList)) :: []) ::
    ((some (Cell.str (("Ana").toList)) :: some (Cell.str (("11999999999").toList)) :: []) :: [])

/-- Spreadsheet grid with neither a name-like nor a phone-like header. -/
def c5NoColsGrid : List (List (Option Cell)) :=
  (some (Cell.str (("cidade").toList)) :: []) ::
    ((some (Cell.str (("SP").toList)) :: []) :: [])

/-- Spreadsheet grid of the C6 instantiation: headers Nome, Telefone and
Cidade; a valid row, a row with an empty name (skipped silently) and a row
whose phone fails normalization (per-row error). -/
def c6Row0 : List (Option Cell) :=
  some (Cell.str (("Nome").toList)) :: some (Cell.str (("Telefone").toList)) ::
    some (Cell.str (("Cidade").toList)) :: []

/-- The three data rows of the C6 instantiation. -/
def c6DataRows : List (List (Option Cell)) :=
  (some (Cell.str (("Ana").toList)) :: some (Cell.str (("11999999999").toList)) ::
      some (Cell.str (("SP").toList)) :: []) ::
    ((some (Cell.str []) :: some (Cell.str (("123").toList)) ::
      some (Cell.str (("X").toList)) :: []) ::
    ((some (Cell.str (("Bob").toList)) :: some (Cell.str (("123").toList)) ::
      some (Cell.str []) :: []) :: []))

/-- The single record the C6 grid imports to. -/
def c6Expected : Contact :=
  { id := JVal.jstr ('g' :: [])
    name := JVal.jstr (("Ana").toList)
    phone := ("5511999999999").toList
    status := ContactStatus.pendente
    extraInfo := some ((("Cidade").toList, Cell.str (("SP").toList)) :: []) }

/-- A side-field key none of whose export/import heuristics fire: its
lowercased form contains none of "follow up", "followup", "data", "date",
"envio", "cnpj" or "volume". -/
def plainKeyB (k : List Char) : Bool :=
  !(containsSub (lowerChars k) followUpPat) && !(containsSub (lowerChars k) followUpPat2) &&
    !(containsSub (lowerChars k) (("data").toList)) &&
    !(containsSub (lowerChars k) (("date").toList)) &&
    !(containsSub (lowerChars k) (("envio").toList)) &&
    !(containsSub (lowerChars k) (("cnpj").toList)) &&
    !(containsSub (lowerChars k) (("volume").toList))

/-- Drop the synthesized status column from a side-field list ("ignoring
the synthesized status column" in the round-trip claim). -/
def eraseFollowUp (extra : List (List Char × Cell)) : List (List Char × Cell) :=
  extra.filter fun kv => !(kv.1 == followUpHeader)

/-- The record of the C9 instantiation: side fields Nome, Telefone and
Cidade (as the manual-add path and a spreadsheet import produce). -/
def c9Orig : Contact :=
  { id := JVal.jstr ('1' :: [])
    name := JVal.jstr (("Ana").toList)
    phone := ("5511999999999").toList
    status := ContactStatus.pendente
    extraInfo := some ((("Nome").toList, Cell.str (("Ana").toList)) ::
      (("Telefone").toList, Cell.str (("5511999999999").toList)) ::
      (("Cidade").toList, Cell.str (("SP").toList)) :: []) }

/-- The worksheet grid `exportToExcel` produces for the collection holding
only `c9Orig`. -/
def c9Grid : List (List (Option Cell)) :=
  (some (Cell.str (("Nome").toList)) :: some (Cell.str (("Telefone").toList)) ::
      some (Cell.str (("Cidade").toList)) :: some (Cell.str followUpHeader) :: []) ::
    ((some (Cell.str (("Ana").toList)) :: some (Cell.str (("5511999999999").toList)) ::
      some (Cell.str (("SP").toList)) :: some (Cell.str (("Pendente").toList)) :: []) :: [])

/-- The record a spreadsheet re-import builds from an exported row whose
name cell is `nv`, normalized phone is `p` and remaining columns are
`extra` (the id comes from the generator at data-row index 1). -/
def roundTripContact (gen : Nat → List Char) (nv : Cell) (p : List Char)
    (extra : List (List Char × Cell)) : Contact :=
  { id := JVal.jstr (gen 1)
    name := JVal.jstr (trimChars (cellStr nv))
    phone := p
    status := ContactStatus.pendente
    customMessage := none
    timerActive := false
    extraInfo := some extra }

/-- Concrete record for instantiating the round-trip theorem: name-like
and phone-like side fields followed by one plain field. -/
def c9WitnessContact : Contact :=
  { id := JVal.jstr ('2' :: [])
    name := JVal.jstr (("Ana").toList)
    phone := ("5511999999999").toList
    status := ContactStatus.pendente
    extraInfo := some ((("Nome").toList, Cell.str (("Ana").toList)) ::
      (("Telefone").toList, Cell.str (("11999999999").toList)) ::
      (("Cidade").toList, Cell.str (("SP").toList)) :: []) }

/-- Record whose name is the dollar sequence that JavaScript replacement
strings expand to the matched text. -/
def dollarContact : Contact :=
  { id := JVal.jstr []
    name := JVal.jstr ('$' :: '&' :: [])
    phone := ("5511999999999").toList
    status := ContactStatus.pendente }

/-! ### Helper lemmas -/

theorem dropWhile_idem {α : Type} (p : α → Bool) (l : List α) :
    (l.dropWhile p).dropWhile p = l.dropWhile p := by
  induction l with
  | nil => rfl
  | cons a l ih =>
    by_cases h : p a = true
    · rw [List.dropWhile_cons, if_pos h, ih]
    · rw [List.dropWhile_cons, if_neg h, List.dropWhile_cons, if_neg h]

theorem dollarSubst_no_dollar (pre matched post : List Char) :
    ∀ rep : List Char, '$' ∉ rep → dollarSubst pre matched post rep = rep := by
  intro rep
  induction rep with
  | nil => intro _; rfl
  | cons c rest ih =>
    intro h
    have hc : ¬(c = '$') := by
      intro heq
      exact h (heq ▸ List.mem_cons_self c rest)
    have hrest : '$' ∉ rest := fun hm => h (List.mem_cons_of_mem c hm)
    unfold dollarSubst
    rw [if_neg hc, ih hrest]

theorem replaceAllF_not_contains (pat rep orig : List Char) :
    ∀ (s : List Char) (fuel i : Nat), s.length ≤ fuel → containsSub s pat = false →
      replaceAllF pat rep orig fuel i s = s := by
  intro s
  induction s with
  | nil =>
    intro fuel i _ _
    cases fuel <;> rfl
  | cons c rest ih =>
    intro fuel i hlen hcon
    match fuel with
    | 0 => exact absurd hlen (by simp)
    | fuel + 1 =>
      rw [containsSub] at hcon
      simp only [Bool.or_eq_false_iff] at hcon
      show (if pat.isPrefixOf (c :: rest) ∧ 0 < pat.length then
          dollarSubst (orig.take i) pat (orig.drop (i + pat.length)) rep ++
            replaceAllF pat rep orig fuel (i + pat.length) (rest.drop (pat.length - 1))
        else c :: replaceAllF pat rep orig fuel (i + 1) rest) = c :: rest
      rw [if_neg (by simp [hcon.1])]
      rw [ih fuel (i + 1) (by simp only [List.length_cons] at hlen; omega) hcon.2]

theorem replaceAll_of_not_contains (pat rep s : List Char)
    (h : containsSub s pat = false) : replaceAll pat rep s = s :=
  replaceAllF_not_contains pat rep s s s.length 0 (Nat.le_refl _) h

theorem cleanPhoneNumber_jstr (s : List Char) :
    cleanPhoneNumber (JVal.jstr s) =
      if (normCandidate s).length < 12 then Except.error (invalidPhoneMsg s)
      else Except.ok (normCandidate s) := rfl

theorem normCandidate_digits (s : List Char) :
    ∀ a ∈ normCandidate s, a.isDigit = true := by
  intro a ha
  unfold normCandidate at ha
  have base : ∀ b ∈ (s.filter Char.isDigit).dropWhile (fun c => c == '0'), b.isDigit = true := by
    intro b hb
    have hmem := (List.dropWhile_sublist (l := s.filter Char.isDigit)
      (fun c => c == '0')).subset hb
    exact (List.mem_filter.mp hmem).2
  by_cases hc : (('5' :: '5' :: []).isPrefixOf
      ((s.filter Char.isDigit).dropWhile (fun c => c == '0')) = false ∧
      ((s.filter Char.isDigit).dropWhile (fun c => c == '0')).length ≤ 11)
  · rw [if_pos hc] at ha
    simp only [List.mem_cons] at ha
    rcases ha with ha | ha | ha
    · simp [ha]
    · simp [ha]
    · exact base a ha
  · rw [if_neg hc] at ha
    exact base a ha

theorem normCandidate_dropZeros (s : List Char) :
    (normCandidate s).dropWhile (fun c => c == '0') = normCandidate s := by
  unfold normCandidate
  by_cases hc : (('5' :: '5' :: []).isPrefixOf
      ((s.filter Char.isDigit).dropWhile (fun c => c == '0')) = false ∧
      ((s.filter Char.isDigit).dropWhile (fun c => c == '0')).length ≤ 11)
  · rw [if_pos hc, List.dropWhile_cons, if_neg (by decide)]
  · rw [if_neg hc]
    exact dropWhile_idem _ _

theorem clean_fixed_point (c : List Char) (hdig : ∀ a ∈ c, a.isDigit = true)
    (hz : c.dropWhile (fun x => x == '0') = c) (hlen : 12 ≤ c.length) :
    cleanPhoneNumber (JVal.jstr c) = Except.ok c := by
  have h1 : c.filter Char.isDigit = c := List.filter_eq_self.mpr hdig
  have hc : normCandidate c = c := by
    unfold normCandidate
    simp only [h1, hz]
    have hcon : ¬((('5' :: '5' :: []).isPrefixOf c = false) ∧ c.length ≤ 11) := by
      rintro ⟨-, hle⟩
      omega
    rw [if_neg hcon]
  rw [cleanPhoneNumber_jstr, hc, if_neg (by omega)]

theorem parseItems_cons (gen : Nat → List Char) (k : Nat) (item : JVal) (rest : List JVal) :
    parseItems gen k (item :: rest) =
      if truthyField (item.getField nameKey) = true ∧ truthyField (item.getField phoneKey) = true then
        match cleanPhoneNumber ((item.getField phoneKey).getD JVal.jnull) with
        | Except.error e => Except.error e
        | Except.ok p =>
          (parseItems gen (k + 1) rest).map fun cs =>
            { id :=
                match item.getField idKey with
                | some v => if v.truthy = true then v else JVal.jstr (gen k)
                | none => JVal.jstr (gen k)
              name := (item.getField nameKey).getD JVal.jnull
              phone := p
              status := ContactStatus.pendente
              customMessage := item.getField customMessageKey } :: cs
      else
        Except.error missingFieldMsg := rfl

theorem parseItems_error_of_bad (gen : Nat → List Char) :
    ∀ (items : List JVal) (k : Nat) (it : JVal), it ∈ items → jsonItemOk it = false →
      ∃ m, parseItems gen k items = Except.error m := by
  intro items
  induction items with
  | nil => intro k it hmem; exact absurd hmem (List.not_mem_nil it)
  | cons a rest ih =>
    intro k it hmem hbad
    rw [parseItems_cons]
    by_cases hcond : truthyField (a.getField nameKey) = true ∧ truthyField (a.getField phoneKey) = true
    · rw [if_pos hcond]
      cases hclean : cleanPhoneNumber ((a.getField phoneKey).getD JVal.jnull) with
      | error e => exact ⟨e, rfl⟩
      | ok p =>
        have hagood : jsonItemOk a = true := by
          unfold jsonItemOk
          rw [hcond.1, hcond.2, hclean]
          rfl
        have hit : it ∈ rest := by
          rcases List.mem_cons.mp hmem with h | h
          · subst h
            rw [hagood] at hbad
            exact absurd hbad (by simp)
          · exact h
        obtain ⟨m, hm⟩ := ih (k + 1) it hit hbad
        exact ⟨m, by rw [hm]; rfl⟩
    · rw [if_neg hcond]
      exact ⟨missingFieldMsg, rfl⟩

theorem parseItems_ok_of_good (gen : Nat → List Char) :
    ∀ (items : List JVal) (k : Nat), (∀ it ∈ items, jsonItemOk it = true) →
      ∃ cs, parseItems gen k items = Except.ok cs := by
  intro items
  induction items with
  | nil => intro k _; exact ⟨[], rfl⟩
  | cons a rest ih =>
    intro k hgood
    have ha : jsonItemOk a = true := hgood a (List.mem_cons_self a rest)
    unfold jsonItemOk at ha
    simp only [Bool.and_eq_true] at ha
    rw [parseItems_cons, if_pos ⟨ha.1.1, ha.1.2⟩]
    cases hclean : cleanPhoneNumber ((a.getField phoneKey).getD JVal.jnull) with
    | error e =>
      rw [hclean] at ha
      exact absurd ha.2 (by simp [isOkB])
    | ok p =>
      obtain ⟨cs, hcs⟩ := ih (k + 1) (fun it hit => hgood it (List.mem_cons_of_mem a hit))
      exact ⟨_, by rw [hcs]; rfl⟩

theorem parseItems_ok_all_good (gen : Nat → List Char) :
    ∀ (items : List JVal) (k : Nat) (cs : List Contact),
      parseItems gen k items = Except.ok cs → ∀ it ∈ items, jsonItemOk it = true := by
  intro items
  induction items with
  | nil => intro k cs _ it hmem; exact absurd hmem (List.not_mem_nil it)
  | cons a rest ih =>
    intro k cs h it hmem
    rw [parseItems_cons] at h
    by_cases hcond : truthyField (a.getField nameKey) = true ∧ truthyField (a.getField phoneKey) = true
    · rw [if_pos hcond] at h
      cases hclean : cleanPhoneNumber ((a.getField phoneKey).getD JVal.jnull) with
      | error e =>
        rw [hclean] at h
        exact absurd h (by simp)
      | ok p =>
        rw [hclean] at h
        cases hrest : parseItems gen (k + 1) rest with
        | error m =>
          rw [hrest] at h
          exact absurd h (by simp [Except.map])
        | ok cs' =>
          rcases List.mem_cons.mp hmem with hh | hh
          · subst hh
            unfold jsonItemOk
            rw [hcond.1, hcond.2, hclean]
            rfl
          · exact ih (k + 1) cs' hrest it hh
    · rw [if_neg hcond] at h
      exact absurd h (by simp)

theorem parseItems_spec (gen : Nat → List Char) :
    ∀ (items : List JVal) (k : Nat) (cs : List Contact),
      parseItems gen k items = Except.ok cs →
      cs.length = items.length ∧
      ∀ (i : Nat) (it : JVal) (c : Contact),
        items.get? i = some it → cs.get? i = some c →
        c.status = ContactStatus.pendente ∧
        cleanPhoneNumber ((it.getField phoneKey).getD JVal.jnull) = Except.ok c.phone ∧
        c.name = (it.getField nameKey).getD JVal.jnull ∧
        c.customMessage = it.getField customMessageKey ∧
        (truthyField (it.getField idKey) = true → c.id = (it.getField idKey).getD JVal.jnull) ∧
        (truthyField (it.getField idKey) = false → c.id = JVal.jstr (gen (k + i))) := by
  intro items
  induction items with
  | nil =>
    intro k cs h
    have : cs = [] := by
      simp only [parseItems] at h
      exact (Except.ok.injEq _ _).mp h.symm
    subst this
    exact ⟨rfl, fun i it c hit => by simp at hit⟩
  | cons a rest ih =>
    intro k cs h
    rw [parseItems_cons] at h
    by_cases hcond : truthyField (a.getField nameKey) = true ∧ truthyField (a.getField phoneKey) = true
    · rw [if_pos hcond] at h
      cases hclean : cleanPhoneNumber ((a.getField phoneKey).getD JVal.jnull) with
      | error e =>
        rw [hclean] at h
        exact absurd h (by simp)
      | ok p =>
        rw [hclean] at h
        cases hrest : parseItems gen (k + 1) rest with
        | error m =>
          rw [hrest] at h
          exact absurd h (by simp [Except.map])
        | ok cs' =>
          rw [hrest] at h
          simp only [Except.map, Except.ok.injEq] at h
          subst h
          obtain ⟨hlen, hspec⟩ := ih (k + 1) cs' hrest
          constructor
          · simp [hlen]
          · intro i it c hit hc
            match i with
            | 0 =>
              simp only [List.get?_cons_zero, Option.some.injEq] at hit hc
              subst hit
              subst hc
              refine ⟨rfl, hclean, rfl, rfl, ?_, ?_⟩
              · intro htr
                cases hf : a.getField idKey with
                | none =>
                  rw [hf] at htr
                  exact absurd htr (by simp [truthyField])
                | some v =>
                  rw [hf] at htr
                  simp only [truthyField] at htr
                  simp only [hf, Option.getD_some]
                  show (if v.truthy = true then v else JVal.jstr (gen k)) = v
                  rw [if_pos htr]
              · intro htr
                cases hf : a.getField idKey with
                | none =>
                  simp only [hf, Nat.add_zero]
                | some v =>
                  rw [hf] at htr
                  simp only [truthyField] at htr
                  simp only [hf, Nat.add_zero]
                  show (if v.truthy = true then v else JVal.jstr (gen k)) = JVal.jstr (gen k)
                  rw [if_neg (by rw [htr]; simp)]
            | Nat.succ j =>
              simp only [List.get?_cons_succ] at hit hc
              have := hspec j it c hit hc
              refine ⟨this.1, this.2.1, this.2.2.1, this.2.2.2.1, this.2.2.2.2.1, ?_⟩
              intro htr
              rw [this.2.2.2.2.2 htr]
              have harith : k + 1 + j = k + (j + 1) := by omega
              rw [harith]
    · rw [if_neg hcond] at h
      exact absurd h (by simp)

theorem plainKey_spec {k : List Char} (h : plainKeyB k = true) :
    containsSub (lowerChars k) followUpPat = false ∧
    containsSub (lowerChars k) followUpPat2 = false ∧
    containsSub (lowerChars k) (("data").toList) = false ∧
    containsSub (lowerChars k) (("date").toList) = false ∧
    containsSub (lowerChars k) (("envio").toList) = false ∧
    containsSub (lowerChars k) (("cnpj").toList) = false ∧
    containsSub (lowerChars k) (("volume").toList) = false := by
  unfold plainKeyB at h
  simp only [Bool.and_eq_true, Bool.not_eq_true'] at h
  tauto

theorem statusLabel_ne_nil (st : ContactStatus) : statusLabel st ≠ [] := by
  cases st <;> decide

theorem plain_ne_followUp {k : List Char} (h : plainKeyB k = true) : k ≠ followUpHeader := by
  intro heq
  subst heq
  exact absurd h (by decide)

theorem exportRowAux_cons (st : ContactStatus) (k : List Char) (v : Cell)
    (rest : List (List Char × Cell)) (added : Bool) :
    exportRowAux st ((k, v) :: rest) added =
      if containsSub (lowerChars k) followUpPat = true ∨
          containsSub (lowerChars k) followUpPat2 = true then
        exportRowAux st rest added
      else
        (fun fv =>
          if containsSub (lowerChars k) (("volume").toList) = true ∧ added = false then
            (k, fv) :: (followUpHeader, Cell.str (statusLabel st)) :: exportRowAux st rest true
          else (k, fv) :: exportRowAux st rest added)
        (if containsSub (lowerChars k) (("data").toList) = true ∨
            containsSub (lowerChars k) (("date").toList) = true ∨
            containsSub (lowerChars k) (("envio").toList) = true then
          convertExcelDate v
        else if containsSub (lowerChars k) (("cnpj").toList) = true then
          Cell.str ((cellStr v).filter Char.isDigit)
        else v) := rfl

theorem exportRowAux_plain (st : ContactStatus) :
    ∀ kvs : List (List Char × Cell), (∀ kv ∈ kvs, plainKeyB kv.1 = true) →
      exportRowAux st kvs false =
        kvs ++ (followUpHeader, Cell.str (statusLabel st)) :: [] := by
  intro kvs
  induction kvs with
  | nil => intro _; rfl
  | cons kv rest ih =>
    intro hplain
    obtain ⟨k, v⟩ := kv
    have hk : plainKeyB k = true := hplain (k, v) (List.mem_cons_self _ _)
    obtain ⟨h1, h2, h3, h4, h5, h6, h7⟩ := plainKey_spec hk
    rw [exportRowAux_cons]
    rw [if_neg (by rw [h1, h2]; simp)]
    rw [if_neg (by rw [h3, h4, h5]; simp)]
    rw [if_neg (by rw [h6]; simp)]
    show (if containsSub (lowerChars k) (("volume").toList) = true ∧ false = false then
        (k, v) :: (followUpHeader, Cell.str (statusLabel st)) :: exportRowAux st rest true
      else (k, v) :: exportRowAux st rest false) = _
    rw [if_neg (by rw [h7]; simp)]
    rw [ih fun kv hm => hplain kv (List.mem_cons_of_mem _ hm)]
    rfl

theorem contains_eq_false_iff (l : List (List Char)) (x : List Char) :
    l.contains x = false ↔ x ∉ l := by
  constructor
  · intro h hm
    have : l.contains x = true := by simp [hm]
    rw [h] at this
    exact absurd this (by simp)
  · intro h
    cases hc : l.contains x with
    | false => rfl
    | true =>
      have : x ∈ l := by
        have := hc
        simpa using this
      exact absurd this h

theorem headersFold_nodup :
    ∀ (r : List (List Char × Cell)) (acc : List (List Char)),
      (∀ kv ∈ r, acc.contains kv.1 = false) → (r.map Prod.fst).Nodup →
      r.foldl (fun acc2 kv => if acc2.contains kv.1 then acc2 else acc2 ++ kv.1 :: []) acc =
        acc ++ r.map Prod.fst := by
  intro r
  induction r with
  | nil => intro acc _ _; simp
  | cons kv rest ih =>
    intro acc hacc hnd
    rw [List.foldl_cons]
    rw [if_neg (by rw [hacc kv (List.mem_cons_self _ _)]; simp)]
    rw [List.map_cons] at hnd
    have hnd2 := List.nodup_cons.mp hnd
    rw [ih (acc ++ kv.1 :: []) ?_ hnd2.2]
    · rw [List.append_assoc]
      rfl
    · intro kv2 hm
      have hne : kv2.1 ≠ kv.1 := by
        intro heq
        exact hnd2.1 (heq ▸ List.mem_map_of_mem Prod.fst hm)
      have hc := (contains_eq_false_iff _ _).mp (hacc kv2 (List.mem_cons_of_mem _ hm))
      rw [contains_eq_false_iff]
      simp only [List.mem_append, List.mem_singleton]
      rintro (hmem | hmem)
      · exact hc hmem
      · exact hne hmem

theorem sheetHeaders_single (r : List (List Char × Cell))
    (hnd : (r.map Prod.fst).Nodup) :
    sheetHeaders (r :: []) = r.map Prod.fst := by
  unfold sheetHeaders
  rw [List.foldl_cons, List.foldl_nil]
  exact headersFold_nodup r [] (fun kv _ => rfl) hnd

theorem assoc_self_cells :
    ∀ r : List (List Char × Cell), (r.map Prod.fst).Nodup →
      (r.map Prod.fst).map (fun h => (r.find? fun kv => kv.1 == h).map Prod.snd) =
        r.map fun kv => some kv.2 := by
  intro r
  induction r with
  | nil => intro _; rfl
  | cons a rest ih =>
    intro hnd
    rw [List.map_cons] at hnd
    have hnd2 := List.nodup_cons.mp hnd
    rw [List.map_cons, List.map_cons, List.map_cons]
    congr 1
    · rw [List.find?_cons]
      simp
    · have hstep : ∀ h ∈ rest.map Prod.fst,
          ((a :: rest).find? fun kv => kv.1 == h).map Prod.snd =
            (rest.find? fun kv => kv.1 == h).map Prod.snd := by
        intro h hm
        rw [List.find?_cons]
        have hne : (a.1 == h) = false := by
          have : a.1 ≠ h := fun heq => hnd2.1 (heq ▸ hm)
          simpa using this
        rw [hne]
      rw [List.map_congr_left hstep]
      exact ih hnd2.2

theorem cells_getD (l : List (List Char × Cell)) (j : Nat) :
    (l.map fun kv => (some kv.2 : Option Cell)).getD j none = (l.get? j).map Prod.snd := by
  rw [List.getD_eq_getElem?_getD, List.getElem?_map]
  rw [show l[j]? = l.get? j from (List.get?_eq_getElem? l j).symm]
  cases l.get? j <;> rfl

theorem rowExtraAux_tail (nIdx pIdx : Nat) (row : List (Option Cell)) :
    ∀ (assoc : List (List Char × Cell)) (i : Nat), nIdx < i → pIdx < i →
      (∀ j, row.getD (i + j) none = (assoc.get? j).map Prod.snd) →
      rowExtraAux nIdx pIdx row i (assoc.map Prod.fst) =
        assoc.filter fun kv => !(kv.2 == Cell.str []) := by
  intro assoc
  induction assoc with
  | nil => intro i _ _ _; rfl
  | cons kv rest ih =>
    intro i hn hp hrow
    rw [List.map_cons]
    have h0 : row.getD i none = some kv.2 := by
      have := hrow 0
      simpa using this
    have hrest : ∀ j, row.getD (i + 1 + j) none = (rest.get? j).map Prod.snd := by
      intro j
      have := hrow (j + 1)
      rw [show i + (j + 1) = i + 1 + j by omega] at this
      rw [this, List.get?_cons_succ]
    have hih := ih (i + 1) (by omega) (by omega) hrest
    show (if i ≠ nIdx ∧ i ≠ pIdx then
        match row.getD i none with
        | some v =>
          if v = Cell.str [] then rowExtraAux nIdx pIdx row (i + 1) (rest.map Prod.fst)
          else (kv.1, v) :: rowExtraAux nIdx pIdx row (i + 1) (rest.map Prod.fst)
        | none => rowExtraAux nIdx pIdx row (i + 1) (rest.map Prod.fst)
      else rowExtraAux nIdx pIdx row (i + 1) (rest.map Prod.fst)) = _
    rw [if_pos ⟨by omega, by omega⟩, h0]
    show (if kv.2 = Cell.str [] then rowExtraAux nIdx pIdx row (i + 1) (rest.map Prod.fst)
      else (kv.1, kv.2) :: rowExtraAux nIdx pIdx row (i + 1) (rest.map Prod.fst)) = _
    rw [hih, List.filter_cons]
    by_cases hv : kv.2 = Cell.str []
    · rw [if_pos hv, if_neg (by simp [hv])]
    · rw [if_neg hv, if_pos (by simp [hv])]

theorem rowExtraAux_skip (nIdx pIdx : Nat) (row : List (Option Cell)) (i : Nat)
    (h : i = nIdx ∨ i = pIdx) (hd : List Char) (tl : List (List Char)) :
    rowExtraAux nIdx pIdx row i (hd :: tl) = rowExtraAux nIdx pIdx row (i + 1) tl := by
  show (if i ≠ nIdx ∧ i ≠ pIdx then
      match row.getD i none with
      | some v =>
        if v = Cell.str [] then rowExtraAux nIdx pIdx row (i + 1) tl
        else (hd, v) :: rowExtraAux nIdx pIdx row (i + 1) tl
      | none => rowExtraAux nIdx pIdx row (i + 1) tl
    else rowExtraAux nIdx pIdx row (i + 1) tl) = _
  rw [if_neg (by tauto)]

/-! ### Claims -/

theorem validateAndParseJSON_arr (gen : Nat → List Char) (items : List JVal) :
    validateAndParseJSON gen (Except.ok (JVal.jarr items)) =
      match parseItems gen 0 items with
      | Except.ok cs => Except.ok cs
      | Except.error e => Except.error (jsonErrPrefix ++ e) := rfl

/-- Counterexample for C7 as stated: a record whose name is the two
characters dollar-ampersand.  JavaScript expands that sequence in a string
replacement to the matched text, so the program renders the template
"Oi \x7bname\x7d" to itself — the matched placeholder — and not to the
template with the record's name substituted, refuting the universal
literal-substitution reading ("no escaping of substituted values"). -/
theorem c7_template_renderer_counterexample :
    replacePlaceholders (("Oi \x7bname\x7d").toList) dollarContact =
      ("Oi \x7bname\x7d").toList ∧
    JVal.toStr dollarContact.name = '$' :: '&' :: [] ∧
    ("Oi \x7bname\x7d").toList ≠ ("Oi $&").toList := by
  refine ⟨by decide, rfl, by decide⟩

/-- C7 (corrected).  The template renderer is a pure function of the
template and the record: it is literal substring search for the name
placeholder and then the phone placeholder, but the substituted value
passes through JavaScript replacement-string dollar-sequence expansion
(`dollarSubst`): a value containing no dollar character is inserted
verbatim, while dollar-ampersand inserts the matched placeholder text
instead.  A template containing neither placeholder is returned unchanged,
the spec's example renders as stated, and repeated placeholders are all
substituted. -/
theorem c7_template_renderer_amended :
    (∀ (t : List Char) (c : Contact),
      replacePlaceholders t c =
        replaceAll phonePlaceholder c.phone
          (replaceAll namePlaceholder (JVal.toStr c.name) t)) ∧
    (∀ pre matched post rep : List Char, '$' ∉ rep →
      dollarSubst pre matched post rep = rep) ∧
    (∀ pre matched post rest : List Char,
      dollarSubst pre matched post ('$' :: '&' :: rest) =
        matched ++ dollarSubst pre matched post rest) ∧
    (∀ (t : List Char) (c : Contact),
      containsSub t namePlaceholder = false →
      containsSub t phonePlaceholder = false →
      replacePlaceholders t c = t) ∧
    replacePlaceholders (("Olá \x7bname\x7d, tel \x7bphone\x7d").toList) anaContact =
      ("Olá Ana, tel 5511999999999").toList ∧
    replacePlaceholders (("\x7bname\x7d e \x7bname\x7d").toList) anaContact =
      ("Ana e Ana").toList := by
  refine ⟨fun t c => rfl, dollarSubst_no_dollar, fun pre matched post rest => rfl,
    fun t c hn hp => ?_, by decide, by decide⟩
  unfold replacePlaceholders
  rw [replaceAll_of_not_contains _ _ _ hn, replaceAll_of_not_contains _ _ _ hp]

/-- Witness for C7's amended theorem at concrete inputs: a template
without placeholders is returned unchanged, and a dollar-free value passes
through the dollar expansion verbatim. -/
theorem c7_template_renderer_amended_witness :
    replacePlaceholders (("sem marcadores").toList) anaContact =
      ("sem marcadores").toList ∧
    dollarSubst [] [] [] (("Ana").toList) = ("Ana").toList :=
  ⟨c7_template_renderer_amended.2.2.2.1 (("sem marcadores").toList) anaContact
      (by decide) (by decide),
    c7_template_renderer_amended.2.1 [] [] [] (("Ana").toList) (by decide)⟩

/-- C1 (confirmed).  For every input string `s`, `cleanPhoneNumber` strips
every non-digit, strips leading zeros, prepends 55 when the result does not
begin with 55 and has at most 11 digits (the candidate `normCandidate s`,
spelled from the spec's words), succeeds with exactly that candidate when
it has at least 12 digits, and otherwise fails with the invalid-phone error
whose message carries the original input; "11999999999" normalizes to
"5511999999999", "+55 11 99999-9999" normalizes to "5511999999999", and
"123" fails. -/
theorem c1_clean_phone_spec :
    (∀ s : List Char,
      cleanPhoneNumber (JVal.jstr s) =
        if 12 ≤ (normCandidate s).length then Except.ok (normCandidate s)
        else Except.error (invalidPhoneMsg s)) ∧
    (∀ s : List Char, invalidPhoneMsg s = (("Número de telefone inválido: ").toList) ++ s) ∧
    cleanPhoneNumber (JVal.jstr (("11999999999").toList)) = Except.ok (("5511999999999").toList) ∧
    cleanPhoneNumber (JVal.jstr (("+55 11 99999-9999").toList)) = Except.ok (("5511999999999").toList) ∧
    cleanPhoneNumber (JVal.jstr (("123").toList)) = Except.error (invalidPhoneMsg (("123").toList)) := by
  refine ⟨fun s => ?_, fun s => rfl, by decide, by decide, by decide⟩
  rw [cleanPhoneNumber_jstr]
  by_cases h : 12 ≤ (normCandidate s).length
  · rw [if_neg (by omega), if_pos h]
  · rw [if_pos (by omega), if_neg h]

/-- C10 (confirmed).  Normalization is idempotent on its successful
outputs: when `cleanPhoneNumber` succeeds on `s` with result `c`, running
it again on `c` succeeds and returns `c` unchanged. -/
theorem c10_clean_idempotent (s c : List Char)
    (h : cleanPhoneNumber (JVal.jstr s) = Except.ok c) :
    cleanPhoneNumber (JVal.jstr c) = Except.ok c := by
  rw [cleanPhoneNumber_jstr] at h
  by_cases hl : (normCandidate s).length < 12
  · rw [if_pos hl] at h
    exact absurd h (by simp)
  · rw [if_neg hl] at h
    have hc : normCandidate s = c := by
      injection h
    subst hc
    exact clean_fixed_point _ (normCandidate_digits s) (normCandidate_dropZeros s) (by omega)

/-- C8 (confirmed).  When the timeout armed by dispatch fires for a
contact id, the update transitions a record to "Aguardando resposta" and
clears its timer marker exactly when its id matches and its status is still
exactly "Mensagem enviada"; a record whose status changed in the interim,
or whose id does not match, is returned unchanged (the update is a total
function, it never raises an error); and after a manual override to
"Respondido" the fired timer is a no-op on the whole collection. -/
theorem c8_timer_fire (cid : JVal) (contacts : List Contact) (i : Nat) (c : Contact)
    (h : contacts.get? i = some c) :
    (startTimerFire cid contacts).length = contacts.length ∧
    (scalarEq c.id cid = true → c.status = ContactStatus.mensagemEnviada →
      (startTimerFire cid contacts).get? i =
        some { c with status := ContactStatus.aguardandoResposta, timerActive := false }) ∧
    (c.status ≠ ContactStatus.mensagemEnviada →
      (startTimerFire cid contacts).get? i = some c) ∧
    (scalarEq c.id cid = false →
      (startTimerFire cid contacts).get? i = some c) ∧
    startTimerFire cid (updateStatus cid ContactStatus.respondido contacts) =
      updateStatus cid ContactStatus.respondido contacts := by
  refine ⟨List.length_map _ _, ?_, ?_, ?_, ?_⟩
  · intro hid hst
    unfold startTimerFire
    rw [List.get?_map, h]
    simp [hid, hst]
  · intro hst
    unfold startTimerFire
    rw [List.get?_map, h]
    simp only [Option.map_some']
    rw [if_neg (by intro hcon; exact hst hcon.2)]
  · intro hid
    unfold startTimerFire
    rw [List.get?_map, h]
    simp only [Option.map_some']
    rw [if_neg (by intro hcon; rw [hid] at hcon; exact absurd hcon.1 (by decide))]
  · unfold startTimerFire updateStatus
    rw [List.map_map]
    apply List.map_congr_left
    intro x _
    by_cases hid : scalarEq x.id cid = true
    · simp only [Function.comp_apply, if_pos hid]
      rw [if_neg (by intro hcon; exact absurd hcon.2 (by decide))]
    · simp only [Function.comp_apply, if_neg hid]
      rw [if_neg (by intro hcon; exact hid hcon.1)]

/-- Witness for C8 at a concrete collection: a dispatched contact still in
"Mensagem enviada" moves to "Aguardando resposta" when the timer fires. -/
theorem c8_timer_fire_witness :
    (startTimerFire (JVal.jstr ('x' :: []))
        ({ id := JVal.jstr ('x' :: []), name := JVal.jstr (("Ana").toList),
           phone := ("5511999999999").toList,
           status := ContactStatus.mensagemEnviada, timerActive := true } :: [])).get? 0 =
      some { id := JVal.jstr ('x' :: []), name := JVal.jstr (("Ana").toList),
             phone := ("5511999999999").toList,
             status := ContactStatus.aguardandoResposta, timerActive := false } :=
  (c8_timer_fire (JVal.jstr ('x' :: []))
    ({ id := JVal.jstr ('x' :: []), name := JVal.jstr (("Ana").toList),
       phone := ("5511999999999").toList,
       status := ContactStatus.mensagemEnviada, timerActive := true } :: []) 0
    { id := JVal.jstr ('x' :: []), name := JVal.jstr (("Ana").toList),
      phone := ("5511999999999").toList,
      status := ContactStatus.mensagemEnviada, timerActive := true } rfl).2.1 rfl rfl

/-- Witness for C10 at a concrete input: normalizing "11999999999" gives
"5511999999999", and re-normalizing that output returns it unchanged. -/
theorem c10_clean_idempotent_witness :
    cleanPhoneNumber (JVal.jstr (("5511999999999").toList)) =
      Except.ok (("5511999999999").toList) :=
  c10_clean_idempotent (("11999999999").toList) _ (by decide)

/-- C2 (corrected).  For every JSON input array on which the import
succeeds, the record count equals the input length, every record's status
is "Pendente" and its phone is the normalization of the element's phone;
the record's id is the element's id when the element carries a truthy id
value, while with an absent or falsy id (the source tests `item.id ||
generateId()`, not mere presence) a freshly generated id is assigned. -/
theorem c2_json_import_amended (gen : Nat → List Char) (items : List JVal) (cs : List Contact)
    (h : validateAndParseJSON gen (Except.ok (JVal.jarr items)) = Except.ok cs) :
    cs.length = items.length ∧
    ∀ (i : Nat) (it : JVal) (c : Contact),
      items.get? i = some it → cs.get? i = some c →
      c.status = ContactStatus.pendente ∧
      cleanPhoneNumber ((it.getField phoneKey).getD JVal.jnull) = Except.ok c.phone ∧
      (truthyField (it.getField idKey) = true → c.id = (it.getField idKey).getD JVal.jnull) ∧
      (truthyField (it.getField idKey) = false → c.id = JVal.jstr (gen i)) := by
  have hp : parseItems gen 0 items = Except.ok cs := by
    rw [validateAndParseJSON_arr] at h
    cases hpi : parseItems gen 0 items with
    | ok cs2 =>
      rw [hpi] at h
      simp only [Except.ok.injEq] at h
      rw [h]
    | error m =>
      rw [hpi] at h
      exact absurd h (by simp)
  obtain ⟨hlen, hspec⟩ := parseItems_spec gen items 0 cs hp
  refine ⟨hlen, fun i it c hit hc => ?_⟩
  have hall := hspec i it c hit hc
  refine ⟨hall.1, hall.2.1, hall.2.2.2.2.1, fun htr => ?_⟩
  have := hall.2.2.2.2.2 htr
  rw [this]
  rw [Nat.zero_add]

/-- Counterexample for C2 as stated: the element carries an id field (the
empty string, which is present but falsy), yet the import assigns a freshly
generated id rather than the element's id. -/
theorem c2_json_import_counterexample :
    (validateAndParseJSON genG (Except.ok (JVal.jarr (c2BadItem :: [])))).map
        (fun cs => cs.map Contact.id) =
      Except.ok (JVal.jstr ('g' :: []) :: []) ∧
    (c2BadItem.getField idKey).isSome = true ∧
    JVal.jstr ('g' :: []) ≠ JVal.jstr [] := by
  refine ⟨rfl, rfl, by simp⟩

/-- Witness for C2's amended theorem at a concrete input: one good
element imports to one record. -/
theorem c2_json_import_amended_witness :
    c2Result.length = (c2GoodItem :: []).length :=
  (c2_json_import_amended genG (c2GoodItem :: []) c2Result rfl).1

/-- C3 (confirmed).  When the phone of any element of a JSON input array
fails normalization, the whole import fails with an error and the
previously held collection is left untouched (the paste handler only sets
the error message). -/
theorem c3_json_atomicity (gen : Nat → List Char) (st : AppState) (items : List JVal)
    (it : JVal) (e : List Char) (hmem : it ∈ items)
    (he : cleanPhoneNumber ((it.getField phoneKey).getD JVal.jnull) = Except.error e) :
    (∃ m, validateAndParseJSON gen (Except.ok (JVal.jarr items)) = Except.error m) ∧
    (handlePasteJSON gen (Except.ok (JVal.jarr items)) st).contacts = st.contacts := by
  have hbad : jsonItemOk it = false := by
    unfold jsonItemOk
    rw [he]
    simp [isOkB]
  obtain ⟨m, hm⟩ := parseItems_error_of_bad gen items 0 it hmem hbad
  have hv : validateAndParseJSON gen (Except.ok (JVal.jarr items)) =
      Except.error (jsonErrPrefix ++ m) := by
    rw [validateAndParseJSON_arr, hm]
  refine ⟨⟨jsonErrPrefix ++ m, hv⟩, ?_⟩
  unfold handlePasteJSON
  rw [hv]

/-- Witness for C3 at a concrete input: an array with one element whose
phone "123" fails normalization leaves the held collection unchanged. -/
theorem c3_json_atomicity_witness :
    (handlePasteJSON genG (Except.ok (JVal.jarr (c3BadItem :: [])))
        { contacts := anaContact :: [], jsonInput := [], hasChanges := false,
          errorMsg := [], successMsg := [] }).contacts = anaContact :: [] :=
  (c3_json_atomicity genG
    { contacts := anaContact :: [], jsonInput := [], hasChanges := false,
      errorMsg := [], successMsg := [] }
    (c3BadItem :: []) c3BadItem (invalidPhoneMsg (("123").toList))
    (List.mem_cons_self _ _) (by decide)).2

/-- C4 (corrected).  JSON-mode import succeeds exactly when the parsed
input is an array each of whose elements has a truthy name, a truthy phone
and a phone that normalizes; so it raises an error as soon as some element
lacks either one of the two fields (not only when both are missing), and
also on a normalization failure. -/
theorem c4_json_parse_error_amended (gen : Nat → List Char) (v : JVal) :
    (∃ cs, validateAndParseJSON gen (Except.ok v) = Except.ok cs) ↔
    (∃ items, v = JVal.jarr items ∧ ∀ it ∈ items, jsonItemOk it = true) := by
  constructor
  · rintro ⟨cs, hcs⟩
    cases v with
    | jarr items =>
      refine ⟨items, rfl, ?_⟩
      rw [validateAndParseJSON_arr] at hcs
      cases hpi : parseItems gen 0 items with
      | ok cs2 => exact parseItems_ok_all_good gen items 0 cs2 hpi
      | error m =>
        rw [hpi] at hcs
        exact absurd hcs (by simp)
    | jnull => exact absurd hcs (by simp [validateAndParseJSON])
    | jbool b => exact absurd hcs (by simp [validateAndParseJSON])
    | jnum n => exact absurd hcs (by simp [validateAndParseJSON])
    | jstr s2 => exact absurd hcs (by simp [validateAndParseJSON])
    | jobj f => exact absurd hcs (by simp [validateAndParseJSON])
  · rintro ⟨items, rfl, hgood⟩
    obtain ⟨cs, hcs⟩ := parseItems_ok_of_good gen items 0 hgood
    exact ⟨cs, by rw [validateAndParseJSON_arr, hcs]⟩

/-- Counterexample for C4 as stated: an element that has a name field
(one of the two fields) and merely lacks the phone field is rejected by
the import with the missing-field parse error. -/
theorem c4_json_parse_error_counterexample :
    validateAndParseJSON genG (Except.ok (JVal.jarr (c4Item :: []))) =
      Except.error (jsonErrPrefix ++ missingFieldMsg) ∧
    (c4Item.getField nameKey).isSome = true := by
  exact ⟨rfl, rfl⟩

/-- C5 (corrected).  In spreadsheet-mode import the header scan finds a
name column exactly when some lowercased, trimmed header contains "nome" or
is exactly "name" (containment of the English word "name" alone, as in
"fullname", is NOT enough), finds a phone column exactly when some header
contains "telefone", "phone" or "celular", and when either column is absent
the import is a hard failure with the missing-columns error, producing zero
records. -/
theorem c5_header_scan_amended :
    (∀ hs : List (List Char),
      ((hs.findIdx? nameHeaderB).isSome = true ↔
        ∃ h ∈ hs, containsSub h (("nome").toList) = true ∨ h = nameKey)) ∧
    (∀ hs : List (List Char),
      ((hs.findIdx? phoneHeaderB).isSome = true ↔
        ∃ h ∈ hs, containsSub h (("telefone").toList) = true ∨
          containsSub h phoneKey = true ∨ containsSub h (("celular").toList) = true)) ∧
    (∀ (gen : Nat → List Char) (row0 : List (Option Cell)) (dataRows : List (List (Option Cell))),
      dataRows ≠ [] →
      (nameIdxOf row0 = none ∨ phoneIdxOf row0 = none) →
      parseExcelFile gen (row0 :: dataRows) = Except.error missingColsMsg) := by
  refine ⟨fun hs => ?_, fun hs => ?_, fun gen row0 dataRows hne hcols => ?_⟩
  · rw [List.findIdx?_isSome, List.any_eq_true]
    constructor
    · rintro ⟨h, hmem, hp⟩
      refine ⟨h, hmem, ?_⟩
      unfold nameHeaderB at hp
      simp only [Bool.or_eq_true, beq_iff_eq] at hp
      exact hp
    · rintro ⟨h, hmem, hp⟩
      refine ⟨h, hmem, ?_⟩
      unfold nameHeaderB
      simp only [Bool.or_eq_true, beq_iff_eq]
      exact hp
  · rw [List.findIdx?_isSome, List.any_eq_true]
    constructor
    · rintro ⟨h, hmem, hp⟩
      refine ⟨h, hmem, ?_⟩
      unfold phoneHeaderB at hp
      simp only [Bool.or_eq_true] at hp
      tauto
    · rintro ⟨h, hmem, hp⟩
      refine ⟨h, hmem, ?_⟩
      unfold phoneHeaderB
      simp only [Bool.or_eq_true]
      tauto
  · have hlen : ¬ ((row0 :: dataRows).length < 2) := by
      have : 0 < dataRows.length := List.length_pos.mpr hne
      simp only [List.length_cons]
      omega
    unfold parseExcelFile
    rw [if_neg hlen]
    cases hn : nameIdxOf row0 with
    | none =>
      cases hp : phoneIdxOf row0 with
      | none => simp only [hn, hp]
      | some b => simp only [hn, hp]
    | some a =>
      cases hp : phoneIdxOf row0 with
      | none => simp only [hn, hp]
      | some b =>
        rcases hcols with h | h
        · exact absurd (hn.symm.trans h) (by simp)
        · exact absurd (hp.symm.trans h) (by simp)

/-- Counterexample for C5 as stated: the header "fullname" contains the
substring "name", yet the import hard-fails with the missing-columns error
because the source requires the header to contain "nome" or to equal
"name" exactly. -/
theorem c5_header_scan_counterexample :
    containsSub (("fullname").toList) (("name").toList) = true ∧
    parseExcelFile genG c5Grid = Except.error missingColsMsg := by
  exact ⟨rfl, rfl⟩

/-- Witness for C5's amended theorem at a concrete grid with no
recognizable columns: the import fails with the missing-columns error. -/
theorem c5_header_scan_amended_witness :
    parseExcelFile genG c5NoColsGrid = Except.error missingColsMsg :=
  c5_header_scan_amended.2.2 genG
    (some (Cell.str (("cidade").toList)) :: [])
    ((some (Cell.str (("SP").toList)) :: []) :: [])
    (by simp) (Or.inl rfl)

/-- C6 (confirmed).  In spreadsheet-mode import a data row whose name or
phone cell is absent or empty is skipped silently (no record and no error
entry); a row with truthy name and phone whose phone fails normalization is
recorded as the per-row error "Linha (i+1): ..." and produces no record,
without aborting the loop; and with the two columns found the import fails
with the aggregate error exactly when zero rows produced a record, while a
non-empty record list is returned as a success even when some rows failed
(those failures are only logged). -/
theorem c6_excel_row_handling :
    (∀ (gen : Nat → List Char) (nIdx pIdx : Nat) (H : List (List Char)) (i : Nat)
        (row : List (Option Cell)),
      (row.getD nIdx none = none ∨ row.getD nIdx none = some (Cell.str []) ∨
        row.getD pIdx none = none ∨ row.getD pIdx none = some (Cell.str [])) →
      importRow gen nIdx pIdx H i row = none) ∧
    (∀ (gen : Nat → List Char) (nIdx pIdx : Nat) (H : List (List Char)) (i : Nat)
        (row : List (Option Cell)) (nc pc : Cell) (e : List Char),
      row.getD nIdx none = some nc → row.getD pIdx none = some pc →
      cellTruthy nc = true → cellTruthy pc = true →
      cleanPhoneNumber (cellToJVal pc) = Except.error e →
      importRow gen nIdx pIdx H i row = some (Except.error (linhaMsg (i + 1) e))) ∧
    (∀ (gen : Nat → List Char) (row0 : List (Option Cell))
        (dataRows : List (List (Option Cell))) (nIdx pIdx : Nat),
      nameIdxOf row0 = some nIdx → phoneIdxOf row0 = some pIdx → dataRows ≠ [] →
      ((importRowsAux gen nIdx pIdx (origHeaders row0) 1 dataRows).1 ≠ [] →
        parseExcelFile gen (row0 :: dataRows) =
          Except.ok (importRowsAux gen nIdx pIdx (origHeaders row0) 1 dataRows).1) ∧
      ((importRowsAux gen nIdx pIdx (origHeaders row0) 1 dataRows).1 = [] →
        parseExcelFile gen (row0 :: dataRows) =
          Except.error (noValidMsg (importRowsAux gen nIdx pIdx (origHeaders row0) 1 dataRows).2))) := by
  refine ⟨fun gen nIdx pIdx H i row h => ?_, fun gen nIdx pIdx H i row nc pc e hn hp htn htp hcl => ?_,
    fun gen row0 dataRows nIdx pIdx hn hp hne => ?_⟩
  · rcases h with h | h | h | h
    · unfold importRow
      simp only [h]
    · unfold importRow
      simp only [h]
      cases row.getD pIdx none with
      | none => rfl
      | some pc => simp [cellTruthy]
    · unfold importRow
      simp only [h]
      cases row.getD nIdx none with
      | none => rfl
      | some nc => rfl
    · unfold importRow
      simp only [h]
      cases row.getD nIdx none with
      | none => rfl
      | some nc => simp [cellTruthy]
  · unfold importRow
    simp only [hn, hp]
    rw [if_pos ⟨htn, htp⟩, hcl]
  · have hlen : ¬ ((row0 :: dataRows).length < 2) := by
      have : 0 < dataRows.length := List.length_pos.mpr hne
      simp only [List.length_cons]
      omega
    constructor
    · intro hcs
      unfold parseExcelFile
      rw [if_neg hlen]
      simp only [hn, hp]
      rw [if_neg (by simpa [List.length_eq_zero] using hcs)]
    · intro hcs
      unfold parseExcelFile
      rw [if_neg hlen]
      simp only [hn, hp]
      rw [if_pos (by simp [hcs])]

/-- Witness for C6 at a concrete grid: the empty-name row is skipped
with no error, the bad-phone row yields the per-row error for line 4, and
the import succeeds with the one valid record despite that failure. -/
theorem c6_excel_row_handling_witness :
    importRow genG 0 1 (origHeaders c6Row0) 2
        (some (Cell.str []) :: some (Cell.str (("123").toList)) ::
          some (Cell.str (("X").toList)) :: []) = none ∧
    importRow genG 0 1 (origHeaders c6Row0) 3
        (some (Cell.str (("Bob").toList)) :: some (Cell.str (("123").toList)) ::
          some (Cell.str []) :: []) =
      some (Except.error (linhaMsg 4 (invalidPhoneMsg (("123").toList)))) ∧
    parseExcelFile genG (c6Row0 :: c6DataRows) = Except.ok (c6Expected :: []) := by
  refine ⟨?_, ?_, ?_⟩
  · exact c6_excel_row_handling.1 genG 0 1 (origHeaders c6Row0) 2 _ (Or.inr (Or.inl rfl))
  · exact c6_excel_row_handling.2.1 genG 0 1 (origHeaders c6Row0) 3 _
      (Cell.str (("Bob").toList)) (Cell.str (("123").toList))
      (invalidPhoneMsg (("123").toList)) rfl rfl (by decide) (by decide) (by decide)
  · exact (c6_excel_row_handling.2.2 genG c6Row0 c6DataRows 0 1 rfl rfl
      (by simp [c6DataRows])).1 (List.cons_ne_nil _ _)

/-- Counterexample for C9 as stated: exporting the single record `c9Orig`
(side fields Nome, Telefone, Cidade) and re-importing the produced grid
yields a record whose extraInfo, even ignoring the synthesized status
column, holds only the Cidade field: the name-like and phone-like columns
were consumed as the record's name and phone instead of being reproduced as
side fields, so the original keys are not recovered. -/
theorem c9_round_trip_counterexample :
    exportToExcel (c9Orig :: []) = Except.ok c9Grid ∧
    (parseExcelFile genG c9Grid).map
        (fun cs => cs.map fun c => eraseFollowUp (c.extraInfo.getD [])) =
      Except.ok ((((("Cidade").toList, Cell.str (("SP").toList))) :: []) :: []) ∧
    (((("Cidade").toList, Cell.str (("SP").toList))) :: []) ≠ c9Orig.extraInfo.getD [] := by
  refine ⟨rfl, rfl, by decide⟩

/-- C9 (corrected).  The exact round trip holds only for the plain side
fields: for a single-record collection whose side fields start with one
name-like and one phone-like column (truthy name value, normalizable phone
value) followed by fields with pairwise-distinct, trimmed keys matching
none of the export/import heuristics (no follow-up, date, cnpj or volume
substring) and with non-empty values, importing the exported grid succeeds
and the imported record's extraInfo, ignoring the synthesized status
column, is exactly those remaining side fields, while the name-like and
phone-like columns are consumed as the record's name and normalized
phone. -/
theorem c9_round_trip_amended (gen : Nat → List Char) (c : Contact)
    (nk pk : List Char) (nv pv : Cell) (rest : List (List Char × Cell)) (p : List Char)
    (hx : c.extraInfo = some ((nk, nv) :: (pk, pv) :: rest))
    (hnkPlain : plainKeyB nk = true) (hpkPlain : plainKeyB pk = true)
    (hnkLow : trimChars (lowerChars nk) = lowerChars nk)
    (hpkLow : trimChars (lowerChars pk) = lowerChars pk)
    (hnkName : nameHeaderB (lowerChars nk) = true)
    (hnkPhone : phoneHeaderB (lowerChars nk) = false)
    (hpkPhone : phoneHeaderB (lowerChars pk) = true)
    (hrest : ∀ kv ∈ rest, plainKeyB kv.1 = true ∧ trimChars kv.1 = kv.1 ∧ kv.2 ≠ Cell.str [])
    (hnd : (nk :: pk :: rest.map Prod.fst).Nodup)
    (hnv : cellTruthy nv = true) (hpv : cellTruthy pv = true)
    (hclean : cleanPhoneNumber (cellToJVal pv) = Except.ok p) :
    ∃ c2 : Contact,
      exportToExcel (c :: []) = Except.ok (gridOfRows (exportRow c :: [])) ∧
      parseExcelFile gen (gridOfRows (exportRow c :: [])) = Except.ok (c2 :: []) ∧
      eraseFollowUp (c2.extraInfo.getD []) = rest ∧
      c2.phone = p := by
  have hplainAll : ∀ kv ∈ (nk, nv) :: (pk, pv) :: rest, plainKeyB kv.1 = true := by
    intro kv hm
    rcases List.mem_cons.mp hm with h | hm2
    · rw [h]
      exact hnkPlain
    rcases List.mem_cons.mp hm2 with h | hm3
    · rw [h]
      exact hpkPlain
    · exact (hrest kv hm3).1
  have hrow : exportRow c =
      (nk, nv) :: (pk, pv) ::
        (rest ++ (followUpHeader, Cell.str (statusLabel c.status)) :: []) := by
    unfold exportRow
    rw [hx, Option.getD_some, exportRowAux_plain c.status _ hplainAll]
    rfl
  have hfun : followUpHeader ∉ rest.map Prod.fst := by
    intro hm
    obtain ⟨kv, hkv, heq⟩ := List.mem_map.mp hm
    exact plain_ne_followUp (hrest kv hkv).1 heq
  have hnkfu : nk ≠ followUpHeader := plain_ne_followUp hnkPlain
  have hpkfu : pk ≠ followUpHeader := plain_ne_followUp hpkPlain
  have hnd1 := List.nodup_cons.mp hnd
  have hnd2 := List.nodup_cons.mp hnd1.2
  have hnk2 : ¬(nk = pk) ∧ nk ∉ rest.map Prod.fst := by
    constructor
    · intro heq
      exact hnd1.1 (heq ▸ List.mem_cons_self pk (rest.map Prod.fst))
    · intro hm
      exact hnd1.1 (List.mem_cons_of_mem pk hm)
  have hkeys : (exportRow c).map Prod.fst =
      nk :: pk :: (rest.map Prod.fst ++ followUpHeader :: []) := by
    rw [hrow, List.map_cons, List.map_cons, List.map_append]
    rfl
  have hndRow : ((exportRow c).map Prod.fst).Nodup := by
    rw [hkeys]
    refine List.nodup_cons.mpr ⟨?_, List.nodup_cons.mpr ⟨?_, ?_⟩⟩
    · intro hcon
      simp only [List.mem_cons, List.mem_append] at hcon
      rcases hcon with h | h | h | h
      · exact hnk2.1 h
      · exact hnk2.2 h
      · exact hnkfu h
      · simp at h
    · intro hcon
      simp only [List.mem_append, List.mem_cons] at hcon
      rcases hcon with h | h | h
      · exact hnd2.1 h
      · exact hpkfu h
      · simp at h
    · rw [List.nodup_append]
      refine ⟨hnd2.2, List.nodup_singleton _, ?_⟩
      intro a ha hb
      rw [List.mem_singleton] at hb
      exact hfun (hb ▸ ha)
  have hgrid : gridOfRows (exportRow c :: []) =
      (((exportRow c).map Prod.fst).map fun h => some (Cell.str h)) ::
        (((exportRow c).map fun kv => some kv.2) :: []) := by
    simp only [gridOfRows]
    rw [sheetHeaders_single _ hndRow, List.map_cons, List.map_nil,
      assoc_self_cells _ hndRow]
  have hlow : lowHeaders (((exportRow c).map Prod.fst).map fun h => some (Cell.str h)) =
      ((exportRow c).map Prod.fst).map fun k => trimChars (lowerChars k) := by
    unfold lowHeaders
    rw [List.map_map]
    rfl
  have hn0 : nameIdxOf (((exportRow c).map Prod.fst).map fun h => some (Cell.str h)) = some 0 := by
    unfold nameIdxOf
    rw [hlow, hkeys, List.map_cons, List.findIdx?_cons, hnkLow, hnkName]
    rfl
  have hp1 : phoneIdxOf (((exportRow c).map Prod.fst).map fun h => some (Cell.str h)) = some 1 := by
    unfold phoneIdxOf
    rw [hlow, hkeys, List.map_cons, List.findIdx?_cons, hnkLow, hnkPhone]
    rw [if_neg (by simp), List.map_cons, List.findIdx?_cons, hpkLow, hpkPhone]
    rfl
  have htailTrim : (rest.map Prod.fst ++ followUpHeader :: []).map trimChars =
      rest.map Prod.fst ++ followUpHeader :: [] := by
    rw [List.map_append]
    have hmc : ∀ k ∈ rest.map Prod.fst, trimChars k = id k := by
      intro k hk
      obtain ⟨kv, hkv, heq⟩ := List.mem_map.mp hk
      rw [heq.symm]
      exact (hrest kv hkv).2.1
    rw [List.map_congr_left hmc, List.map_id]
    rw [show List.map trimChars (followUpHeader :: []) = followUpHeader :: [] from by decide]
  have horig : origHeaders (((exportRow c).map Prod.fst).map fun h => some (Cell.str h)) =
      trimChars nk :: trimChars pk :: (rest.map Prod.fst ++ followUpHeader :: []) := by
    unfold origHeaders
    rw [List.map_map]
    rw [show (((exportRow c).map Prod.fst).map
        ((fun h => trimChars (headerStr h)) ∘ fun h => some (Cell.str h))) =
      ((exportRow c).map Prod.fst).map trimChars from rfl]
    rw [hkeys, List.map_cons, List.map_cons, htailTrim]
  have hcellsGet : ∀ j : Nat,
      ((exportRow c).map fun kv => some kv.2).getD (2 + j) none =
        (((rest ++ (followUpHeader, Cell.str (statusLabel c.status)) :: []).get? j).map
          Prod.snd) := by
    intro j
    rw [hrow, List.map_cons, List.map_cons]
    rw [show 2 + j = (j + 1) + 1 by omega, List.getD_cons_succ, List.getD_cons_succ]
    exact cells_getD _ j
  have hextra : rowExtraAux 0 1 ((exportRow c).map fun kv => some kv.2) 0
      (origHeaders (((exportRow c).map Prod.fst).map fun h => some (Cell.str h))) =
      rest ++ (followUpHeader, Cell.str (statusLabel c.status)) :: [] := by
    rw [horig]
    rw [rowExtraAux_skip 0 1 _ 0 (Or.inl rfl), rowExtraAux_skip 0 1 _ 1 (Or.inr rfl)]
    rw [show rest.map Prod.fst ++ followUpHeader :: [] =
      (rest ++ (followUpHeader, Cell.str (statusLabel c.status)) :: []).map Prod.fst from by
        rw [List.map_append]
        rfl]
    rw [rowExtraAux_tail 0 1 _ _ 2 (by omega) (by omega) hcellsGet]
    apply List.filter_eq_self.mpr
    intro kv hm
    rcases List.mem_append.mp hm with h | h
    · simp [(hrest kv h).2.2]
    · rw [List.mem_singleton] at h
      rw [h]
      simp [statusLabel_ne_nil c.status]
  refine ⟨roundTripContact gen nv p
      (rest ++ (followUpHeader, Cell.str (statusLabel c.status)) :: []),
    rfl, ?_, ?_, rfl⟩
  · rw [hgrid]
    unfold parseExcelFile
    rw [if_neg (by simp)]
    simp only [hn0, hp1]
    have himp : importRow gen 0 1
        (origHeaders (((exportRow c).map Prod.fst).map fun h => some (Cell.str h))) 1
        ((exportRow c).map fun kv => some kv.2) =
        some (Except.ok (roundTripContact gen nv p
          (rest ++ (followUpHeader, Cell.str (statusLabel c.status)) :: []))) := by
      unfold importRow
      have hc0 : ((exportRow c).map fun kv => some kv.2).getD 0 none = some nv := by
        rw [hrow]
        rfl
      have hc1 : ((exportRow c).map fun kv => some kv.2).getD 1 none = some pv := by
        rw [hrow]
        rfl
      simp only [hc0, hc1]
      rw [if_pos ⟨hnv, hpv⟩]
      simp only [hextra, hclean]
      rw [if_neg (by simp)]
      rfl
    simp only [importRowsAux, himp]
    rfl
  · show (rest ++ (followUpHeader, Cell.str (statusLabel c.status)) :: []).filter
        (fun kv => !(kv.1 == followUpHeader)) = rest
    rw [List.filter_append]
    rw [List.filter_eq_self.mpr ?_]
    · rw [show List.filter (fun kv => !(kv.1 == followUpHeader))
          ((followUpHeader, Cell.str (statusLabel c.status)) :: []) = [] from by simp]
      rw [List.append_nil]
    · intro kv hm
      simp [plain_ne_followUp (hrest kv hm).1]

/-- Witness for C9's amended theorem at a concrete record: the exported
grid re-imports to a record whose extraInfo, ignoring the synthesized
status column, is exactly the plain Cidade side field, with the phone
normalized. -/
theorem c9_round_trip_amended_witness :
    ∃ c2 : Contact,
      exportToExcel (c9WitnessContact :: []) =
        Except.ok (gridOfRows (exportRow c9WitnessContact :: [])) ∧
      parseExcelFile genG (gridOfRows (exportRow c9WitnessContact :: [])) =
        Except.ok (c2 :: []) ∧
      eraseFollowUp (c2.extraInfo.getD []) =
        (("Cidade").toList, Cell.str (("SP").toList)) :: [] ∧
      c2.phone = ("5511999999999").toList :=
  c9_round_trip_amended genG c9WitnessContact (("Nome").toList) (("Telefone").toList)
    (Cell.str (("Ana").toList)) (Cell.str (("11999999999").toList))
    ((("Cidade").toList, Cell.str (("SP").toList)) :: []) (("5511999999999").toList)
    rfl (by decide) (by decide) (by decide) (by decide) (by decide) (by decide)
    (by decide) (by decide) (by decide) (by decide) (by decide) (by decide)

end WCA
